import Mathlib

/-!
Verification of the sample-size calculator (`app_v1_full_featured.py`).

The calculator's core (the block behind the "Calculate Sample Size" button,
lines 79-117 of the source) converts percentage inputs to decimals, validates
the derived treatment rate, normalizes the traffic split, computes Cohen's h
and solves the two-sample z-test power equation for the control sample size,
rounding up.

The two statistical routines the source imports from `statsmodels`
(`proportion_effectsize` and `zt_ind_solve_power`) are external to the
repository; they are modelled here from the specification's formulas, with the
standard normal quantile kept as an explicit function parameter `z`.
All other definitions are translated directly from the source.
-/

open Real

/-- Raw inputs of the calculator, one field per input widget, all on the
percent scale the widgets use (lines 17-74 of the source).  The source calls
the last two fields `control_ratio` and `treatment_ratio`; the spec calls them
`control_weight` and `treatment_weight`. -/
structure AppInput where
  baseline_rate : ℝ
  minimum_improvement : ℝ
  confidence_level : ℝ
  power : ℝ
  control_weight : ℝ
  treatment_weight : ℝ

/-- The only failure path of the calculate block: the `st.error` + `st.stop`
at lines 87-89, taken when the derived treatment proportion exceeds 100%. -/
inductive CalcError where
  | targetRateExceeds100 : CalcError
deriving DecidableEq

/-- The numeric outputs of the calculate block (lines 108-117). -/
structure CalcResult where
  control_sample : ℤ
  treatment_sample : ℤ
  total_needed : ℤ

/-- Modelled from the spec: `statsmodels.stats.proportion.proportion_effectsize`,
the Cohen's h variance-stabilizing transform for two proportions,
`2·arcsin(sqrt(prop1)) − 2·arcsin(sqrt(prop2))`.  The statsmodels source is not
part of this repository; the spec (§4.1 step 3) gives the formula. -/
noncomputable def proportion_effectsize (prop1 prop2 : ℝ) : ℝ :=
  2 * Real.arcsin (Real.sqrt prop1) - 2 * Real.arcsin (Real.sqrt prop2)

/-- Modelled from the spec: `statsmodels.stats.power.zt_ind_solve_power`, the
closed-form two-sample z-test solve of §4.1 step 4,
`control_n = ((z_(1−alpha/2) + z_power)^2 · (1 + 1/ratio)) / h^2`.
The statsmodels source is not part of this repository; the standard normal
quantile is kept abstract as the function parameter `z`. -/
noncomputable def zt_ind_solve_power (z : ℝ → ℝ) (effect_size alpha power ratio : ℝ) : ℝ :=
  ((z (1 - alpha / 2) + z power) ^ 2 * (1 + 1 / ratio)) / effect_size ^ 2

/-- Line 82: `control_proportion = baseline_rate / 100`. -/
noncomputable def controlProportion (inp : AppInput) : ℝ :=
  inp.baseline_rate / 100

/-- Lines 83-84: `treatment_proportion = control_proportion * (1 + sensitivity)`
with `sensitivity = minimum_improvement / 100`. -/
noncomputable def treatmentProportion (inp : AppInput) : ℝ :=
  controlProportion inp * (1 + inp.minimum_improvement / 100)

/-- Line 92: `alpha = (100 - confidence_level) / 100`. -/
noncomputable def alphaOf (inp : AppInput) : ℝ :=
  (100 - inp.confidence_level) / 100

/-- Line 93: `power_decimal = power / 100`. -/
noncomputable def powerDecimal (inp : AppInput) : ℝ :=
  inp.power / 100

/-- Lines 96-99: the treatment weight actually used: re-derived as
`100 - control_weight` when the two supplied weights do not sum to 100,
the supplied value otherwise. -/
noncomputable def treatmentWeightUsed (inp : AppInput) : ℝ :=
  if inp.control_weight + inp.treatment_weight ≠ 100 then
    100 - inp.control_weight
  else
    inp.treatment_weight

/-- Line 102: `ratio = (treatment_ratio / 100) / (control_ratio / 100)`,
using the post-normalization treatment weight. -/
noncomputable def ratioOf (inp : AppInput) : ℝ :=
  (treatmentWeightUsed inp / 100) / (inp.control_weight / 100)

/-- Line 105: `effect_size = proportion_effectsize(treatment_proportion,
control_proportion)`. -/
noncomputable def effectSize (inp : AppInput) : ℝ :=
  proportion_effectsize (treatmentProportion inp) (controlProportion inp)

/-- Lines 108-114 before the ceiling: the exact (unrounded) control sample
size returned by the solver. -/
noncomputable def exactControl (z : ℝ → ℝ) (inp : AppInput) : ℝ :=
  zt_ind_solve_power z (effectSize inp) (alphaOf inp) (powerDecimal inp) (ratioOf inp)

/-- The calculate block, lines 79-117: validate the derived treatment
proportion (lines 87-89), then `control_sample = ceil(solver result)`
(lines 108-114), `treatment_sample = ceil(control_sample * ratio)` (line 116)
and `total_needed = control_sample + treatment_sample` (line 117). -/
noncomputable def compute (z : ℝ → ℝ) (inp : AppInput) : Except CalcError CalcResult :=
  if 1 < treatmentProportion inp then
    Except.error CalcError.targetRateExceeds100
  else
    Except.ok
      { control_sample := ⌈exactControl z inp⌉
        treatment_sample := ⌈(⌈exactControl z inp⌉ : ℝ) * ratioOf inp⌉
        total_needed := ⌈exactControl z inp⌉ + ⌈(⌈exactControl z inp⌉ : ℝ) * ratioOf inp⌉ }

/-- Swapping the two traffic-split inputs, used for the symmetry claim. -/
def swapWeights (inp : AppInput) : AppInput :=
  { inp with control_weight := inp.treatment_weight, treatment_weight := inp.control_weight }

/-- Concrete input: baseline 25%, improvement 100%, confidence 95%, power 80%,
10/90 split.  Chosen so that both proportions are squared sines of standard
angles, making the effect size exactly pi/6. -/
def inpSplit : AppInput :=
  ⟨25, 100, 95, 80, 10, 90⟩

/-- The same parameters with the traffic split swapped to 90/10. -/
def inpSplitSwapped : AppInput :=
  ⟨25, 100, 95, 80, 90, 10⟩

/-- The same statistical parameters with an equal 50/50 split. -/
def inpEqual : AppInput :=
  ⟨25, 100, 95, 80, 50, 50⟩

/-- Equal split, improvement 200%: treatment proportion 75%, effect size pi/3. -/
def inpEqualBig : AppInput :=
  ⟨25, 200, 95, 80, 50, 50⟩

/-- A quantile stand-in with small values, used to exhibit ceiling collisions. -/
noncomputable def zSmall : ℝ → ℝ :=
  fun p => p / 10

/-- Baseline 5%, improvement 0%: baseline and treatment rates coincide, so the
effect size is exactly zero.  Unreachable through the widget (its minimum
improvement is 0.1%) but expressible at the function boundary. -/
def inpZero : AppInput :=
  ⟨5, 0, 95, 80, 50, 50⟩

/-- Baseline -5%: a malformed input outside the widget's [0.1, 99.9] range. -/
def inpNeg : AppInput :=
  ⟨-5, 20, 95, 80, 50, 50⟩

/-- Baseline 5%, improvement 20%, weights 40/50: the weights sum to 90, not
100, so the normalization branch fires. -/
def inpUneven : AppInput :=
  ⟨5, 20, 95, 80, 40, 50⟩

section Helpers

lemma sqrt_quarter : Real.sqrt (1 / 4) = 1 / 2 := by
  rw [show (1 : ℝ) / 4 = (1 / 2) ^ 2 by norm_num, Real.sqrt_sq (by norm_num : (0:ℝ) ≤ 1 / 2)]

lemma sqrt_half : Real.sqrt (1 / 2) = Real.sqrt 2 / 2 := by
  have h2 : (0:ℝ) ≤ 2 := by norm_num
  rw [show (1 : ℝ) / 2 = (Real.sqrt 2 / 2) ^ 2 by
        rw [div_pow, Real.sq_sqrt h2]; norm_num,
      Real.sqrt_sq (by positivity)]

lemma sqrt_three_quarters : Real.sqrt (3 / 4) = Real.sqrt 3 / 2 := by
  have h3 : (0:ℝ) ≤ 3 := by norm_num
  rw [show (3 : ℝ) / 4 = (Real.sqrt 3 / 2) ^ 2 by
        rw [div_pow, Real.sq_sqrt h3]; norm_num,
      Real.sqrt_sq (by positivity)]

lemma arcsin_half : Real.arcsin (1 / 2) = π / 6 := by
  rw [← Real.sin_pi_div_six, Real.arcsin_sin] <;> linarith [Real.pi_pos]

lemma arcsin_sqrt_two_half : Real.arcsin (Real.sqrt 2 / 2) = π / 4 := by
  rw [← Real.sin_pi_div_four, Real.arcsin_sin] <;> linarith [Real.pi_pos]

lemma arcsin_sqrt_three_half : Real.arcsin (Real.sqrt 3 / 2) = π / 3 := by
  rw [← Real.sin_pi_div_three, Real.arcsin_sin] <;> linarith [Real.pi_pos]

lemma pi_sq_gt : (9.8695 : ℝ) < π ^ 2 := by
  nlinarith [Real.pi_gt_d6]

lemma pi_sq_lt : π ^ 2 < (9.86961 : ℝ) := by
  nlinarith [Real.pi_gt_d6, Real.pi_lt_d6]

lemma compute_of_le (z : ℝ → ℝ) (inp : AppInput) (h : ¬ 1 < treatmentProportion inp) :
    compute z inp = Except.ok
      { control_sample := ⌈exactControl z inp⌉
        treatment_sample := ⌈(⌈exactControl z inp⌉ : ℝ) * ratioOf inp⌉
        total_needed := ⌈exactControl z inp⌉ + ⌈(⌈exactControl z inp⌉ : ℝ) * ratioOf inp⌉ } := by
  rw [compute, if_neg h]

lemma compute_of_gt (z : ℝ → ℝ) (inp : AppInput) (h : 1 < treatmentProportion inp) :
    compute z inp = Except.error CalcError.targetRateExceeds100 := by
  rw [compute, if_pos h]

lemma compute_ok_elim {z : ℝ → ℝ} {inp : AppInput} {r : CalcResult}
    (h : compute z inp = Except.ok r) :
    ¬ 1 < treatmentProportion inp ∧
      r = { control_sample := ⌈exactControl z inp⌉
            treatment_sample := ⌈(⌈exactControl z inp⌉ : ℝ) * ratioOf inp⌉
            total_needed := ⌈exactControl z inp⌉ + ⌈(⌈exactControl z inp⌉ : ℝ) * ratioOf inp⌉ } := by
  by_cases hc : 1 < treatmentProportion inp
  · rw [compute_of_gt z inp hc] at h
    exact absurd h (by simp)
  · rw [compute_of_le z inp hc] at h
    injection h with h
    exact ⟨hc, h.symm⟩

lemma compute_error_iff (z : ℝ → ℝ) (inp : AppInput) :
    compute z inp = Except.error CalcError.targetRateExceeds100 ↔
      1 < treatmentProportion inp := by
  by_cases hc : 1 < treatmentProportion inp
  · simp [compute_of_gt z inp hc, hc]
  · simp [compute_of_le z inp hc, hc]

/-- Strict positivity of Cohen's h when the two proportions satisfy
`0 < p1 < p2 ≤ 1`. -/
lemma effectSize_pos {inp : AppInput} (hb : 0 < controlProportion inp)
    (hlt : controlProportion inp < treatmentProportion inp)
    (hle : treatmentProportion inp ≤ 1) :
    0 < effectSize inp := by
  have h1 : Real.arcsin (Real.sqrt (controlProportion inp)) <
      Real.arcsin (Real.sqrt (treatmentProportion inp)) := by
    apply Real.strictMonoOn_arcsin
    · constructor
      · linarith [Real.sqrt_nonneg (controlProportion inp)]
      · exact Real.sqrt_le_one.mpr (by linarith)
    · constructor
      · linarith [Real.sqrt_nonneg (treatmentProportion inp)]
      · exact Real.sqrt_le_one.mpr hle
    · exact Real.sqrt_lt_sqrt hb.le hlt
  unfold effectSize proportion_effectsize
  linarith

lemma treatmentProportion_gt {inp : AppInput} (hb : 0 < controlProportion inp)
    (hs : 0 < inp.minimum_improvement) :
    controlProportion inp < treatmentProportion inp := by
  unfold treatmentProportion
  nlinarith

lemma ceil_div_pi_sq (a : ℝ) (n : ℤ) (h1 : ((n : ℝ) - 1) * π ^ 2 < a)
    (h2 : a ≤ (n : ℝ) * π ^ 2) : ⌈a / π ^ 2⌉ = n := by
  have hπ : (0:ℝ) < π ^ 2 := by positivity
  rw [Int.ceil_eq_iff]
  refine ⟨?_, ?_⟩
  · rw [lt_div_iff₀ hπ]
    exact h1
  · rw [div_le_iff₀ hπ]
    exact h2

lemma tp_inpSplit : treatmentProportion inpSplit = 1 / 2 := by
  simp only [treatmentProportion, controlProportion, inpSplit]
  norm_num

lemma cp_inpSplit : controlProportion inpSplit = 1 / 4 := by
  simp only [controlProportion, inpSplit]
  norm_num

lemma ratioOf_inpSplit : ratioOf inpSplit = 9 := by
  simp only [ratioOf, treatmentWeightUsed, inpSplit]
  norm_num

lemma ratioOf_inpSplitSwapped : ratioOf inpSplitSwapped = 1 / 9 := by
  simp only [ratioOf, treatmentWeightUsed, inpSplitSwapped]
  norm_num

lemma ratioOf_inpEqual : ratioOf inpEqual = 1 := by
  simp only [ratioOf, treatmentWeightUsed, inpEqual]
  norm_num

lemma ratioOf_inpEqualBig : ratioOf inpEqualBig = 1 := by
  simp only [ratioOf, treatmentWeightUsed, inpEqualBig]
  norm_num

lemma effectSize_inpSplit : effectSize inpSplit = π / 6 := by
  simp only [effectSize, proportion_effectsize, tp_inpSplit, cp_inpSplit,
    sqrt_half, sqrt_quarter, arcsin_sqrt_two_half, arcsin_half]
  ring

lemma effectSize_inpSplitSwapped : effectSize inpSplitSwapped = π / 6 := by
  have h1 : treatmentProportion inpSplitSwapped = 1 / 2 := by
    simp only [treatmentProportion, controlProportion, inpSplitSwapped]
    norm_num
  have h2 : controlProportion inpSplitSwapped = 1 / 4 := by
    simp only [controlProportion, inpSplitSwapped]
    norm_num
  simp only [effectSize, proportion_effectsize, h1, h2,
    sqrt_half, sqrt_quarter, arcsin_sqrt_two_half, arcsin_half]
  ring

lemma effectSize_inpEqual : effectSize inpEqual = π / 6 := by
  have h1 : treatmentProportion inpEqual = 1 / 2 := by
    simp only [treatmentProportion, controlProportion, inpEqual]
    norm_num
  have h2 : controlProportion inpEqual = 1 / 4 := by
    simp only [controlProportion, inpEqual]
    norm_num
  simp only [effectSize, proportion_effectsize, h1, h2,
    sqrt_half, sqrt_quarter, arcsin_sqrt_two_half, arcsin_half]
  ring

lemma effectSize_inpEqualBig : effectSize inpEqualBig = π / 3 := by
  have h1 : treatmentProportion inpEqualBig = 3 / 4 := by
    simp only [treatmentProportion, controlProportion, inpEqualBig]
    norm_num
  have h2 : controlProportion inpEqualBig = 1 / 4 := by
    simp only [controlProportion, inpEqualBig]
    norm_num
  simp only [effectSize, proportion_effectsize, h1, h2,
    sqrt_three_quarters, sqrt_quarter, arcsin_sqrt_three_half, arcsin_half]
  ring

lemma exactControl_id_inpSplit : exactControl id inpSplit = (5041 / 40) / π ^ 2 := by
  have hπ : π ≠ 0 := Real.pi_ne_zero
  simp only [exactControl]
  rw [effectSize_inpSplit, ratioOf_inpSplit]
  simp only [zt_ind_solve_power, alphaOf, powerDecimal, inpSplit, id]
  rw [div_pow]
  field_simp
  ring

lemma exactControl_id_inpSplitSwapped :
    exactControl id inpSplitSwapped = (45369 / 40) / π ^ 2 := by
  have hπ : π ≠ 0 := Real.pi_ne_zero
  simp only [exactControl]
  rw [effectSize_inpSplitSwapped, ratioOf_inpSplitSwapped]
  simp only [zt_ind_solve_power, alphaOf, powerDecimal, inpSplitSwapped, id]
  rw [div_pow]
  field_simp
  ring

lemma exactControl_id_inpEqual : exactControl id inpEqual = (45369 / 200) / π ^ 2 := by
  have hπ : π ≠ 0 := Real.pi_ne_zero
  simp only [exactControl]
  rw [effectSize_inpEqual, ratioOf_inpEqual]
  simp only [zt_ind_solve_power, alphaOf, powerDecimal, inpEqual, id]
  rw [div_pow]
  field_simp
  ring

lemma exactControl_zSmall_inpEqual :
    exactControl zSmall inpEqual = (45369 / 20000) / π ^ 2 := by
  have hπ : π ≠ 0 := Real.pi_ne_zero
  simp only [exactControl]
  rw [effectSize_inpEqual, ratioOf_inpEqual]
  simp only [zt_ind_solve_power, alphaOf, powerDecimal, inpEqual, zSmall]
  rw [div_pow]
  field_simp
  ring

lemma exactControl_zSmall_inpEqualBig :
    exactControl zSmall inpEqualBig = (45369 / 80000) / π ^ 2 := by
  have hπ : π ≠ 0 := Real.pi_ne_zero
  simp only [exactControl]
  rw [effectSize_inpEqualBig, ratioOf_inpEqualBig]
  simp only [zt_ind_solve_power, alphaOf, powerDecimal, inpEqualBig, zSmall]
  rw [div_pow]
  field_simp
  ring

lemma ceil_exact_inpSplit : ⌈exactControl id inpSplit⌉ = 13 := by
  rw [exactControl_id_inpSplit]
  apply ceil_div_pi_sq
  · push_cast
    nlinarith [pi_sq_lt]
  · push_cast
    nlinarith [pi_sq_gt]

lemma ceil_exact_inpSplitSwapped : ⌈exactControl id inpSplitSwapped⌉ = 115 := by
  rw [exactControl_id_inpSplitSwapped]
  apply ceil_div_pi_sq
  · push_cast
    nlinarith [pi_sq_lt]
  · push_cast
    nlinarith [pi_sq_gt]

lemma ceil_exact_inpEqual : ⌈exactControl id inpEqual⌉ = 23 := by
  rw [exactControl_id_inpEqual]
  apply ceil_div_pi_sq
  · push_cast
    nlinarith [pi_sq_lt]
  · push_cast
    nlinarith [pi_sq_gt]

lemma ceil_exact_zSmall_inpEqual : ⌈exactControl zSmall inpEqual⌉ = 1 := by
  rw [exactControl_zSmall_inpEqual]
  apply ceil_div_pi_sq
  · push_cast
    nlinarith [pi_sq_lt, pi_sq_gt]
  · push_cast
    nlinarith [pi_sq_gt]

lemma ceil_exact_zSmall_inpEqualBig : ⌈exactControl zSmall inpEqualBig⌉ = 1 := by
  rw [exactControl_zSmall_inpEqualBig]
  apply ceil_div_pi_sq
  · push_cast
    nlinarith [pi_sq_lt, pi_sq_gt]
  · push_cast
    nlinarith [pi_sq_gt]

lemma compute_id_inpSplit : compute id inpSplit = Except.ok ⟨13, 117, 130⟩ := by
  have htp : ¬ 1 < treatmentProportion inpSplit := by
    rw [tp_inpSplit]; norm_num
  rw [compute_of_le id inpSplit htp, ceil_exact_inpSplit, ratioOf_inpSplit]
  have h9 : ((13 : ℤ) : ℝ) * 9 = ((117 : ℤ) : ℝ) := by norm_num
  rw [h9, Int.ceil_intCast]
  norm_num

lemma compute_id_inpSplitSwapped :
    compute id inpSplitSwapped = Except.ok ⟨115, 13, 128⟩ := by
  have htp : ¬ 1 < treatmentProportion inpSplitSwapped := by
    have : treatmentProportion inpSplitSwapped = 1 / 2 := by
      simp only [treatmentProportion, controlProportion, inpSplitSwapped]
      norm_num
    rw [this]; norm_num
  rw [compute_of_le id inpSplitSwapped htp, ceil_exact_inpSplitSwapped,
    ratioOf_inpSplitSwapped]
  have h19 : ⌈((115 : ℤ) : ℝ) * (1 / 9)⌉ = (13 : ℤ) := by
    rw [Int.ceil_eq_iff]
    push_cast
    norm_num
  rw [h19]
  norm_num

lemma compute_id_inpEqual : compute id inpEqual = Except.ok ⟨23, 23, 46⟩ := by
  have htp : ¬ 1 < treatmentProportion inpEqual := by
    have : treatmentProportion inpEqual = 1 / 2 := by
      simp only [treatmentProportion, controlProportion, inpEqual]
      norm_num
    rw [this]; norm_num
  rw [compute_of_le id inpEqual htp, ceil_exact_inpEqual, ratioOf_inpEqual]
  have h1 : ((23 : ℤ) : ℝ) * 1 = ((23 : ℤ) : ℝ) := by norm_num
  rw [h1, Int.ceil_intCast]
  norm_num

lemma compute_zSmall_inpEqual : compute zSmall inpEqual = Except.ok ⟨1, 1, 2⟩ := by
  have htp : ¬ 1 < treatmentProportion inpEqual := by
    have : treatmentProportion inpEqual = 1 / 2 := by
      simp only [treatmentProportion, controlProportion, inpEqual]
      norm_num
    rw [this]; norm_num
  rw [compute_of_le zSmall inpEqual htp, ceil_exact_zSmall_inpEqual, ratioOf_inpEqual]
  have h1 : ((1 : ℤ) : ℝ) * 1 = ((1 : ℤ) : ℝ) := by norm_num
  rw [h1, Int.ceil_intCast]
  norm_num

lemma compute_zSmall_inpEqualBig :
    compute zSmall inpEqualBig = Except.ok ⟨1, 1, 2⟩ := by
  have htp : ¬ 1 < treatmentProportion inpEqualBig := by
    have : treatmentProportion inpEqualBig = 3 / 4 := by
      simp only [treatmentProportion, controlProportion, inpEqualBig]
      norm_num
    rw [this]; norm_num
  rw [compute_of_le zSmall inpEqualBig htp, ceil_exact_zSmall_inpEqualBig,
    ratioOf_inpEqualBig]
  have h1 : ((1 : ℤ) : ℝ) * 1 = ((1 : ℤ) : ℝ) := by norm_num
  rw [h1, Int.ceil_intCast]
  norm_num

lemma effectSize_inpZero : effectSize inpZero = 0 := by
  have h1 : treatmentProportion inpZero = 1 / 20 := by
    simp only [treatmentProportion, controlProportion, inpZero]
    norm_num
  have h2 : controlProportion inpZero = 1 / 20 := by
    simp only [controlProportion, inpZero]
    norm_num
  simp only [effectSize, proportion_effectsize, h1, h2]
  ring

lemma exactControl_id_inpZero : exactControl id inpZero = 0 := by
  simp only [exactControl]
  rw [effectSize_inpZero]
  simp only [zt_ind_solve_power]
  norm_num

lemma compute_id_inpZero : compute id inpZero = Except.ok ⟨0, 0, 0⟩ := by
  have htp : ¬ 1 < treatmentProportion inpZero := by
    have : treatmentProportion inpZero = 1 / 20 := by
      simp only [treatmentProportion, controlProportion, inpZero]
      norm_num
    rw [this]; norm_num
  rw [compute_of_le id inpZero htp, exactControl_id_inpZero]
  norm_num

lemma effectSize_inpNeg : effectSize inpNeg = 0 := by
  have h1 : Real.sqrt (treatmentProportion inpNeg) = 0 := by
    rw [Real.sqrt_eq_zero']
    simp only [treatmentProportion, controlProportion, inpNeg]
    norm_num
  have h2 : Real.sqrt (controlProportion inpNeg) = 0 := by
    rw [Real.sqrt_eq_zero']
    simp only [controlProportion, inpNeg]
    norm_num
  simp only [effectSize, proportion_effectsize, h1, h2, Real.arcsin_zero]
  ring

lemma exactControl_id_inpNeg : exactControl id inpNeg = 0 := by
  simp only [exactControl]
  rw [effectSize_inpNeg]
  simp only [zt_ind_solve_power]
  norm_num

lemma compute_id_inpNeg : compute id inpNeg = Except.ok ⟨0, 0, 0⟩ := by
  have htp : ¬ 1 < treatmentProportion inpNeg := by
    have : treatmentProportion inpNeg = -(3 / 50) := by
      simp only [treatmentProportion, controlProportion, inpNeg]
      norm_num
    rw [this]; norm_num
  rw [compute_of_le id inpNeg htp, exactControl_id_inpNeg]
  norm_num

end Helpers

lemma tp_inpEqual : treatmentProportion inpEqual = 1 / 2 := by
  simp only [treatmentProportion, controlProportion, inpEqual]
  norm_num

/-- Claim C1: for every input accepted by `compute` with a nonzero effect
size, the returned control sample size equals the ceiling of the exact
two-sample z-test solution
`((z_(1-alpha/2) + z_power)^2 * (1 + 1/ratio)) / h^2` with
`alpha = 1 - confidence`; in particular it is an integer greater than or
equal to the exact unrounded solution, never below it. -/
theorem claim_C1_control_is_ceiling_of_closed_form (z : ℝ → ℝ) (inp : AppInput)
    (r : CalcResult) (hh : effectSize inp ≠ 0) (hr : compute z inp = Except.ok r) :
    r.control_sample =
      ⌈((z (1 - alphaOf inp / 2) + z (powerDecimal inp)) ^ 2 * (1 + 1 / ratioOf inp)) /
        effectSize inp ^ 2⌉ ∧
    ((z (1 - alphaOf inp / 2) + z (powerDecimal inp)) ^ 2 * (1 + 1 / ratioOf inp)) /
        effectSize inp ^ 2 ≤ (r.control_sample : ℝ) := by
  obtain ⟨-, rfl⟩ := compute_ok_elim hr
  exact ⟨rfl, Int.le_ceil _⟩

theorem claim_C1_witness :
    effectSize inpEqual ≠ 0 ∧
    (⟨23, 23, 46⟩ : CalcResult).control_sample =
      ⌈((id (1 - alphaOf inpEqual / 2) + id (powerDecimal inpEqual)) ^ 2 *
          (1 + 1 / ratioOf inpEqual)) / effectSize inpEqual ^ 2⌉ := by
  have hh : effectSize inpEqual ≠ 0 := by
    rw [effectSize_inpEqual]
    positivity
  exact ⟨hh,
    (claim_C1_control_is_ceiling_of_closed_form id inpEqual ⟨23, 23, 46⟩ hh
      compute_id_inpEqual).1⟩

/-- Claim C2: the effect size used in the sample-size solve equals Cohen's h
for the two proportions, `2·arcsin(sqrt(p2)) − 2·arcsin(sqrt(p1))`, where `p1`
is the baseline (control) proportion and `p2` the derived treatment
proportion. -/
theorem claim_C2_effect_size_is_cohens_h (z : ℝ → ℝ) (inp : AppInput) :
    effectSize inp =
      2 * Real.arcsin (Real.sqrt (treatmentProportion inp)) -
        2 * Real.arcsin (Real.sqrt (controlProportion inp)) ∧
    exactControl z inp =
      zt_ind_solve_power z
        (2 * Real.arcsin (Real.sqrt (treatmentProportion inp)) -
          2 * Real.arcsin (Real.sqrt (controlProportion inp)))
        (alphaOf inp) (powerDecimal inp) (ratioOf inp) ∧
    treatmentProportion inp = controlProportion inp * (1 + inp.minimum_improvement / 100) :=
  ⟨rfl, rfl, rfl⟩

/-- Claim C3: for valid inputs (positive baseline rate and improvement)
`compute` fails with the target-rate validation error exactly when the derived
treatment rate exceeds 1; when it equals 1 the computation proceeds; and on
every successful computation the treatment rate lies in (0, 1]. -/
theorem claim_C3_target_rate_validation (z : ℝ → ℝ) (inp : AppInput)
    (hb : 0 < inp.baseline_rate) (hs : 0 < inp.minimum_improvement) :
    (compute z inp = Except.error CalcError.targetRateExceeds100 ↔
      1 < treatmentProportion inp) ∧
    (treatmentProportion inp = 1 → ∃ r, compute z inp = Except.ok r) ∧
    (∀ r, compute z inp = Except.ok r →
      0 < treatmentProportion inp ∧ treatmentProportion inp ≤ 1) := by
  refine ⟨compute_error_iff z inp, ?_, ?_⟩
  · intro h1
    refine ⟨_, compute_of_le z inp ?_⟩
    rw [h1]
    norm_num
  · intro r hr
    obtain ⟨hle, -⟩ := compute_ok_elim hr
    have h1 : 0 < inp.baseline_rate / 100 := by positivity
    have h2 : (0:ℝ) < 1 + inp.minimum_improvement / 100 := by nlinarith
    have hpos : 0 < treatmentProportion inp := by
      unfold treatmentProportion controlProportion
      exact mul_pos h1 h2
    exact ⟨hpos, not_lt.mp hle⟩

theorem claim_C3_witness :
    (0:ℝ) < 25 ∧
      (compute id inpEqual = Except.error CalcError.targetRateExceeds100 ↔
        1 < treatmentProportion inpEqual) :=
  ⟨by norm_num,
    (claim_C3_target_rate_validation id inpEqual (by norm_num [inpEqual])
      (by norm_num [inpEqual])).1⟩

/-- Claim C4: when the supplied allocation weights do not sum to 100,
`compute` does not fail: the control weight is authoritative and the treatment
weight is re-derived as `100 - control_weight` before the allocation ratio is
computed; when the weights do sum to 100 both supplied values are used
unchanged. -/
theorem claim_C4_weight_normalization (z : ℝ → ℝ) (inp : AppInput)
    (hcw0 : 0 < inp.control_weight) (hcw1 : inp.control_weight < 100) :
    (inp.control_weight + inp.treatment_weight ≠ 100 →
      treatmentWeightUsed inp = 100 - inp.control_weight ∧
      ratioOf inp = ((100 - inp.control_weight) / 100) / (inp.control_weight / 100)) ∧
    (inp.control_weight + inp.treatment_weight = 100 →
      treatmentWeightUsed inp = inp.treatment_weight ∧
      ratioOf inp = (inp.treatment_weight / 100) / (inp.control_weight / 100)) ∧
    (¬ 1 < treatmentProportion inp → ∃ r, compute z inp = Except.ok r) := by
  refine ⟨?_, ?_, ?_⟩
  · intro h
    have ht : treatmentWeightUsed inp = 100 - inp.control_weight := by
      simp only [treatmentWeightUsed]
      rw [if_pos h]
    exact ⟨ht, by rw [ratioOf, ht]⟩
  · intro h
    have ht : treatmentWeightUsed inp = inp.treatment_weight := by
      simp only [treatmentWeightUsed]
      rw [if_neg (not_not_intro h)]
    exact ⟨ht, by rw [ratioOf, ht]⟩
  · intro h
    exact ⟨_, compute_of_le z inp h⟩

theorem claim_C4_witness :
    (treatmentWeightUsed inpUneven = 100 - inpUneven.control_weight ∧
      ratioOf inpUneven =
        ((100 - inpUneven.control_weight) / 100) / (inpUneven.control_weight / 100)) ∧
    ∃ r, compute id inpUneven = Except.ok r := by
  have h := claim_C4_weight_normalization id inpUneven (by norm_num [inpUneven])
    (by norm_num [inpUneven])
  refine ⟨h.1 (by norm_num [inpUneven]), h.2.2 ?_⟩
  have htp : treatmentProportion inpUneven = 3 / 50 := by
    simp only [treatmentProportion, controlProportion, inpUneven]
    norm_num
  rw [htp]
  norm_num

/-- Claim C5: on every successful computation the treatment sample size equals
`ceil(control_sample * ratio)` and the total is the sum of the two groups;
consequently `treatment_sample - control_sample * ratio` lies in [0, 1), so
the realized split matches the configured allocation ratio within one unit. -/
theorem claim_C5_treatment_and_total (z : ℝ → ℝ) (inp : AppInput) (r : CalcResult)
    (hr : compute z inp = Except.ok r) :
    r.treatment_sample = ⌈(r.control_sample : ℝ) * ratioOf inp⌉ ∧
    r.total_needed = r.control_sample + r.treatment_sample ∧
    0 ≤ (r.treatment_sample : ℝ) - (r.control_sample : ℝ) * ratioOf inp ∧
    (r.treatment_sample : ℝ) - (r.control_sample : ℝ) * ratioOf inp < 1 := by
  obtain ⟨-, rfl⟩ := compute_ok_elim hr
  refine ⟨rfl, rfl, ?_, ?_⟩
  · exact sub_nonneg.mpr (Int.le_ceil _)
  · have h := Int.ceil_lt_add_one ((⌈exactControl z inp⌉ : ℝ) * ratioOf inp)
    have : ((⌈(⌈exactControl z inp⌉ : ℝ) * ratioOf inp⌉ : ℤ) : ℝ) <
        (⌈exactControl z inp⌉ : ℝ) * ratioOf inp + 1 := h
    linarith

theorem claim_C5_witness :
    compute id inpEqual = Except.ok ⟨23, 23, 46⟩ ∧
      (⟨23, 23, 46⟩ : CalcResult).total_needed =
        (⟨23, 23, 46⟩ : CalcResult).control_sample +
          (⟨23, 23, 46⟩ : CalcResult).treatment_sample :=
  ⟨compute_id_inpEqual,
    (claim_C5_treatment_and_total id inpEqual ⟨23, 23, 46⟩ compute_id_inpEqual).2.1⟩

/-- Claim C10: for a baseline rate in (0, 100)% and a positive improvement
that passes the treatment-rate check, the treatment proportion strictly
exceeds the control proportion, so Cohen's h is strictly positive and the
denominator `h^2` of the sample-size solve is nonzero: the division can never
be a division by zero under these preconditions. -/
theorem claim_C10_effect_size_positive (inp : AppInput)
    (hb0 : 0 < inp.baseline_rate) (hb1 : inp.baseline_rate < 100)
    (hs : 0 < inp.minimum_improvement) (hle : treatmentProportion inp ≤ 1) :
    controlProportion inp < treatmentProportion inp ∧
    0 < effectSize inp ∧ effectSize inp ≠ 0 ∧ effectSize inp ^ 2 ≠ 0 := by
  have hcp : 0 < controlProportion inp := by
    unfold controlProportion
    positivity
  have hlt := treatmentProportion_gt hcp hs
  have hpos := effectSize_pos hcp hlt hle
  exact ⟨hlt, hpos, ne_of_gt hpos, pow_ne_zero 2 (ne_of_gt hpos)⟩

theorem claim_C10_witness :
    treatmentProportion inpEqual ≤ 1 ∧ 0 < effectSize inpEqual := by
  have hle : treatmentProportion inpEqual ≤ 1 := by
    rw [tp_inpEqual]
    norm_num
  exact ⟨hle,
    (claim_C10_effect_size_positive inpEqual (by norm_num [inpEqual])
      (by norm_num [inpEqual]) (by norm_num [inpEqual]) hle).2.1⟩

/-- Claim C6 counterexample: at an input with relative improvement 0 — the
baseline and treatment rates coincide and the effect size is exactly zero —
`compute` reports no error of any kind: there is no zero-effect-size check and
no NumericError in the code, and the division by `h^2 = 0` proceeds. -/
theorem claim_C6_counterexample :
    effectSize inpZero = 0 ∧ compute id inpZero = Except.ok ⟨0, 0, 0⟩ :=
  ⟨effectSize_inpZero, compute_id_inpZero⟩

/-- Claim C6 amended: `compute` performs no explicit zero-effect-size check
and reports no NumericError; a zero effect size is instead excluded upstream
by the improvement widget's 0.1% minimum: for any input with positive
baseline rate and improvement at least 0.1 that passes the target-rate check,
the effect size is strictly positive (hence nonzero) and `compute`
succeeds. -/
theorem claim_C6_no_zero_effect_in_widget_range (z : ℝ → ℝ) (inp : AppInput)
    (hb : 0 < inp.baseline_rate) (hs : (1:ℝ) / 10 ≤ inp.minimum_improvement)
    (htp : ¬ 1 < treatmentProportion inp) :
    effectSize inp ≠ 0 ∧ ∃ r, compute z inp = Except.ok r := by
  have hcp : 0 < controlProportion inp := by
    unfold controlProportion
    positivity
  have hs0 : 0 < inp.minimum_improvement := lt_of_lt_of_le (by norm_num) hs
  have hlt := treatmentProportion_gt hcp hs0
  have hpos := effectSize_pos hcp hlt (not_lt.mp htp)
  exact ⟨ne_of_gt hpos, ⟨_, compute_of_le z inp htp⟩⟩

theorem claim_C6_witness :
    (1:ℝ) / 10 ≤ (100:ℝ) ∧ effectSize inpEqual ≠ 0 := by
  have htp : ¬ 1 < treatmentProportion inpEqual := by
    rw [tp_inpEqual]
    norm_num
  exact ⟨by norm_num,
    (claim_C6_no_zero_effect_in_widget_range id inpEqual (by norm_num [inpEqual])
      (by norm_num [inpEqual]) htp).1⟩

/-- Claim C7 counterexample: with a negative baseline rate of -5%, a malformed
input outside the widget range, `compute` succeeds and returns a numeric
result instead of failing with a field-identifying validation error. -/
theorem claim_C7_counterexample :
    inpNeg.baseline_rate < 0 ∧ compute id inpNeg = Except.ok ⟨0, 0, 0⟩ :=
  ⟨by norm_num [inpNeg], compute_id_inpNeg⟩

/-- Claim C7 amended: the target-rate check is the only validation `compute`
performs: it returns a validation error exactly when the derived treatment
rate exceeds 1, whatever the other field values; per-field range constraints
(positive rates, confidence and power in (0,1), positive weights) are
enforced only upstream by the bounded input widgets. -/
theorem claim_C7_only_target_rate_checked (z : ℝ → ℝ) (inp : AppInput) :
    (compute z inp = Except.error CalcError.targetRateExceeds100 ↔
      1 < treatmentProportion inp) ∧
    (∀ e, compute z inp = Except.error e → e = CalcError.targetRateExceeds100) := by
  refine ⟨compute_error_iff z inp, ?_⟩
  intro e _
  cases e
  rfl

theorem claim_C7_witness :
    compute id inpEqualBig ≠ Except.error CalcError.targetRateExceeds100 := by
  intro hc
  have h := (claim_C7_only_target_rate_checked id inpEqualBig).1.mp hc
  have htp : treatmentProportion inpEqualBig = 3 / 4 := by
    simp only [treatmentProportion, controlProportion, inpEqualBig]
    norm_num
  rw [htp] at h
  norm_num at h

/-- Claim C8 counterexample: swapping the 10/90 traffic split to 90/10, with
the abstract quantile instantiated at the identity function, does not swap the
two group sizes exactly: the original run returns control 13 and treatment
117, while the swapped run's control sample is 115, not 117 — the two
ceilings are applied in different orders. -/
theorem claim_C8_counterexample :
    compute id inpSplit = Except.ok ⟨13, 117, 130⟩ ∧
    compute id (swapWeights inpSplit) = Except.ok ⟨115, 13, 128⟩ ∧
    (115 : ℤ) ≠ 117 := by
  refine ⟨compute_id_inpSplit, ?_, by norm_num⟩
  have hsw : swapWeights inpSplit = inpSplitSwapped := rfl
  rw [hsw]
  exact compute_id_inpSplitSwapped

/-- Claim C8 amended: swapping the two weights swaps the exact (unrounded)
group sizes — the swapped allocation ratio is the inverse of the original and
the swapped exact control size equals the original exact treatment size
`exactControl * ratio` — but after the two ceilings the swap holds only up to
rounding: the swapped control sample is at most the original treatment sample
and the original control sample is at most the swapped treatment sample. -/
theorem claim_C8_swap_up_to_rounding (z : ℝ → ℝ) (inp : AppInput)
    (r r' : CalcResult)
    (hcw : 0 < inp.control_weight) (htw : 0 < inp.treatment_weight)
    (hsum : inp.control_weight + inp.treatment_weight = 100)
    (hr : compute z inp = Except.ok r)
    (hr' : compute z (swapWeights inp) = Except.ok r') :
    ratioOf (swapWeights inp) = (ratioOf inp)⁻¹ ∧
    exactControl z (swapWeights inp) = exactControl z inp * ratioOf inp ∧
    r'.control_sample ≤ r.treatment_sample ∧
    r.control_sample ≤ r'.treatment_sample := by
  have hd : (0:ℝ) < 100 := by norm_num
  have h1 : treatmentWeightUsed inp = inp.treatment_weight := by
    simp only [treatmentWeightUsed]
    rw [if_neg (not_not_intro hsum)]
  have h2 : treatmentWeightUsed (swapWeights inp) = inp.control_weight := by
    simp only [treatmentWeightUsed, swapWeights]
    rw [if_neg (not_not_intro (by linarith))]
  have hratio : ratioOf inp = (inp.treatment_weight / 100) / (inp.control_weight / 100) := by
    rw [ratioOf, h1]
  have hratio2 : ratioOf (swapWeights inp) =
      (inp.control_weight / 100) / (inp.treatment_weight / 100) := by
    rw [ratioOf, h2]
    rfl
  have hrinv : ratioOf (swapWeights inp) = (ratioOf inp)⁻¹ := by
    rw [hratio, hratio2, inv_div]
  have hrpos : 0 < ratioOf inp := by
    rw [hratio]
    exact div_pos (div_pos htw hd) (div_pos hcw hd)
  have hrne : ratioOf inp ≠ 0 := ne_of_gt hrpos
  have hexact : exactControl z (swapWeights inp) = exactControl z inp * ratioOf inp := by
    have hz : effectSize (swapWeights inp) = effectSize inp := rfl
    have ha : alphaOf (swapWeights inp) = alphaOf inp := rfl
    have hp : powerDecimal (swapWeights inp) = powerDecimal inp := rfl
    have e2 : (1:ℝ) + 1 / (ratioOf inp)⁻¹ = (1 + 1 / ratioOf inp) * ratioOf inp := by
      rw [one_div, inv_inv, add_mul, one_mul, one_div, inv_mul_cancel₀ hrne, add_comm]
    simp only [exactControl, zt_ind_solve_power, hz, ha, hp, hrinv, e2]
    rw [div_mul_eq_mul_div, mul_assoc]
  obtain ⟨-, rfl⟩ := compute_ok_elim hr
  obtain ⟨-, rfl⟩ := compute_ok_elim hr'
  refine ⟨hrinv, hexact, ?_, ?_⟩
  · show ⌈exactControl z (swapWeights inp)⌉ ≤
      ⌈(⌈exactControl z inp⌉ : ℝ) * ratioOf inp⌉
    rw [hexact]
    exact Int.ceil_le_ceil
      (mul_le_mul_of_nonneg_right (Int.le_ceil _) hrpos.le)
  · show ⌈exactControl z inp⌉ ≤
      ⌈(⌈exactControl z (swapWeights inp)⌉ : ℝ) * ratioOf (swapWeights inp)⌉
    apply Int.ceil_le_ceil
    rw [hexact, hrinv]
    calc exactControl z inp
        = exactControl z inp * ratioOf inp * (ratioOf inp)⁻¹ := by
          field_simp
      _ ≤ (⌈exactControl z inp * ratioOf inp⌉ : ℝ) * (ratioOf inp)⁻¹ :=
          mul_le_mul_of_nonneg_right (Int.le_ceil _) (inv_nonneg.mpr hrpos.le)

theorem claim_C8_witness :
    (115 : ℤ) ≤ 117 ∧
      exactControl id (swapWeights inpSplit) = exactControl id inpSplit * ratioOf inpSplit := by
  have hr2 : compute id (swapWeights inpSplit) = Except.ok ⟨115, 13, 128⟩ := by
    have hsw : swapWeights inpSplit = inpSplitSwapped := rfl
    rw [hsw]
    exact compute_id_inpSplitSwapped
  have h := claim_C8_swap_up_to_rounding id inpSplit ⟨13, 117, 130⟩ ⟨115, 13, 128⟩
    (by norm_num [inpSplit]) (by norm_num [inpSplit]) (by norm_num [inpSplit])
    compute_id_inpSplit hr2
  exact ⟨h.2.2.1, h.2.1⟩

lemma effectSize_lt_effectSize {inp1 inp2 : AppInput}
    (hcp : controlProportion inp1 = controlProportion inp2)
    (h0 : 0 ≤ treatmentProportion inp1)
    (hlt : treatmentProportion inp1 < treatmentProportion inp2)
    (hle : treatmentProportion inp2 ≤ 1) :
    effectSize inp1 < effectSize inp2 := by
  have h1 : Real.arcsin (Real.sqrt (treatmentProportion inp1)) <
      Real.arcsin (Real.sqrt (treatmentProportion inp2)) := by
    apply Real.strictMonoOn_arcsin
    · exact ⟨by linarith [Real.sqrt_nonneg (treatmentProportion inp1)],
        Real.sqrt_le_one.mpr (by linarith)⟩
    · exact ⟨by linarith [Real.sqrt_nonneg (treatmentProportion inp2)],
        Real.sqrt_le_one.mpr hle⟩
    · exact Real.sqrt_lt_sqrt h0 hlt
  simp only [effectSize, proportion_effectsize, hcp]
  linarith

/-- Claim C9 counterexample: with the abstract quantile instantiated at
`zSmall`, raising the relative improvement from 100% to 200% while holding
every other input fixed leaves the returned control sample size unchanged at
1: the rounded integer output is not strictly decreasing in the
improvement. -/
theorem claim_C9_counterexample :
    compute zSmall inpEqual = Except.ok ⟨1, 1, 2⟩ ∧
    compute zSmall inpEqualBig = Except.ok ⟨1, 1, 2⟩ ∧
    inpEqual.minimum_improvement < inpEqualBig.minimum_improvement :=
  ⟨compute_zSmall_inpEqual, compute_zSmall_inpEqualBig,
    by norm_num [inpEqual, inpEqualBig]⟩

/-- Claim C9 amended: for fixed baseline rate, confidence, power and weights,
the control sample size is antitone (non-increasing) in the relative
improvement over valid inputs, and the exact unrounded solution strictly
decreases whenever the quantile sum is positive; strict decrease of the
rounded integer can fail, because distinct exact values can share a
ceiling. -/
theorem claim_C9_control_antitone (z : ℝ → ℝ) (inp : AppInput) (s1 s2 : ℝ)
    (hb : 0 < inp.baseline_rate) (hs1 : 0 < s1) (h12 : s1 < s2)
    (htp2 : treatmentProportion { inp with minimum_improvement := s2 } ≤ 1)
    (hw : 0 < ratioOf inp) :
    exactControl z { inp with minimum_improvement := s2 } ≤
      exactControl z { inp with minimum_improvement := s1 } ∧
    ⌈exactControl z { inp with minimum_improvement := s2 }⌉ ≤
      ⌈exactControl z { inp with minimum_improvement := s1 }⌉ ∧
    (0 < z (1 - alphaOf inp / 2) + z (powerDecimal inp) →
      exactControl z { inp with minimum_improvement := s2 } <
        exactControl z { inp with minimum_improvement := s1 }) := by
  have hcp : 0 < controlProportion inp := by
    unfold controlProportion
    positivity
  have hcp1 : controlProportion { inp with minimum_improvement := s1 } =
      controlProportion inp := rfl
  have hcp2 : controlProportion { inp with minimum_improvement := s2 } =
      controlProportion inp := rfl
  have htlt : treatmentProportion { inp with minimum_improvement := s1 } <
      treatmentProportion { inp with minimum_improvement := s2 } := by
    show controlProportion inp * (1 + s1 / 100) < controlProportion inp * (1 + s2 / 100)
    apply mul_lt_mul_of_pos_left _ hcp
    linarith
  have hgt1 : controlProportion inp <
      treatmentProportion { inp with minimum_improvement := s1 } :=
    @treatmentProportion_gt { inp with minimum_improvement := s1 } hcp hs1
  have hes1 : 0 < effectSize { inp with minimum_improvement := s1 } :=
    @effectSize_pos { inp with minimum_improvement := s1 } hcp hgt1
      (by linarith)
  have hlt : effectSize { inp with minimum_improvement := s1 } <
      effectSize { inp with minimum_improvement := s2 } :=
    effectSize_lt_effectSize (hcp1.trans hcp2.symm) (by linarith) htlt htp2
  have hsq : effectSize { inp with minimum_improvement := s1 } ^ 2 <
      effectSize { inp with minimum_improvement := s2 } ^ 2 := by
    nlinarith
  have hsq1 : 0 < effectSize { inp with minimum_improvement := s1 } ^ 2 := by
    positivity
  have hknn : 0 ≤ (z (1 - alphaOf inp / 2) + z (powerDecimal inp)) ^ 2 *
      (1 + 1 / ratioOf inp) := by
    have : (0:ℝ) < 1 + 1 / ratioOf inp := by
      have : 0 < 1 / ratioOf inp := by positivity
      linarith
    positivity
  have hex1 : exactControl z { inp with minimum_improvement := s1 } =
      ((z (1 - alphaOf inp / 2) + z (powerDecimal inp)) ^ 2 * (1 + 1 / ratioOf inp)) /
        effectSize { inp with minimum_improvement := s1 } ^ 2 := rfl
  have hex2 : exactControl z { inp with minimum_improvement := s2 } =
      ((z (1 - alphaOf inp / 2) + z (powerDecimal inp)) ^ 2 * (1 + 1 / ratioOf inp)) /
        effectSize { inp with minimum_improvement := s2 } ^ 2 := rfl
  have hle : exactControl z { inp with minimum_improvement := s2 } ≤
      exactControl z { inp with minimum_improvement := s1 } := by
    rw [hex1, hex2]
    exact div_le_div_of_nonneg_left hknn hsq1 hsq.le
  refine ⟨hle, Int.ceil_le_ceil hle, ?_⟩
  intro hz
  have hkpos : 0 < (z (1 - alphaOf inp / 2) + z (powerDecimal inp)) ^ 2 *
      (1 + 1 / ratioOf inp) := by
    have h1 : (0:ℝ) < 1 + 1 / ratioOf inp := by
      have : 0 < 1 / ratioOf inp := by positivity
      linarith
    positivity
  rw [hex1, hex2]
  exact div_lt_div_of_pos_left hkpos hsq1 hsq

theorem claim_C9_witness :
    (0:ℝ) < 100 ∧ exactControl id inpEqualBig ≤ exactControl id inpEqual := by
  have htp2 : treatmentProportion { inpEqual with minimum_improvement := (200:ℝ) } ≤ 1 := by
    show treatmentProportion inpEqualBig ≤ 1
    have : treatmentProportion inpEqualBig = 3 / 4 := by
      simp only [treatmentProportion, controlProportion, inpEqualBig]
      norm_num
    rw [this]
    norm_num
  have hw : 0 < ratioOf inpEqual := by
    rw [ratioOf_inpEqual]
    norm_num
  have h := claim_C9_control_antitone id inpEqual 100 200 (by norm_num [inpEqual])
    (by norm_num) (by norm_num) htp2 hw
  exact ⟨by norm_num, h.1⟩
